import Mathlib

/-!
Verification of the context-engineering-visualizer repository.

This file gives a shallow embedding, in Lean 4, of the pure computational
core of the repository:

* `src/app/memory.py` / `src/main.py`  — `ConversationMemory` (append + truncate)
* `src/app/visualizer.py` / `src/main.py` — `ContextVisualizer` (layer list +
  per-label token map)
* `src/app/agent.py` — the five-layer context assembly of `process_query`
  and the memory update on the success path
* `src/app/ui.py` — percentage rendering and the error boundary of
  `ContextVisualizerUI.process_query`
* `src/app/tools.py` and `src/main.py` — the two `calculate_metric` tools

Modelling conventions:

* Python lists become `List`, classes become structures, and mutating
  methods become state-passing functions.
* Python `float` values produced by `float(...)` on decimal literals are
  modelled exactly as unnormalised rationals (`PyFloat`, an integer
  numerator over a positive integer denominator).  IEEE-754 rounding,
  overflow to infinity, `nan`/`inf` literals and the signed zero are
  outside the model; every concrete value appearing in the claims is
  exactly representable, and the hyperproperty proofs only use that
  equal rationals format equally.
* Python `dict` (string keys, insertion ordered, update-in-place) is
  modelled as an association list with `dictSet`.
* Exceptions raised by the external model call are modelled with
  `Except`; the `calculate_metric` tools are total functions whose
  Python `except` branch is the `Option.none` branch of the parser.
-/

/-! ### Generic helpers -/

/-- `10 ^ k` as an integer, by structural recursion (kernel friendly). -/
def pow10 : Nat → Int
  | 0 => 1
  | n + 1 => 10 * pow10 n

theorem pow10_pos (k : Nat) : 0 < pow10 k := by
  induction k with
  | zero => decide
  | succ n ih => have : (0:Int) < 10 := by decide
                 simpa [pow10] using mul_pos this ih

/-- Python's `sep.join(items)`. -/
def joinWith (sep : String) : List String → String
  | [] => ""
  | [s] => s
  | s :: rest => s ++ sep ++ joinWith sep (rest)

/-- Python's `text.split(sep)` for a one-character separator, on char lists.
`"".split(",") = [""]`, and consecutive separators yield empty pieces. -/
def splitCharsOn (sep : Char) : List Char → List (List Char)
  | [] => [[]]
  | c :: cs =>
    let r := splitCharsOn sep cs
    if c = sep then [] :: r
    else
      match r with
      | h :: t => (c :: h) :: t
      | [] => [[c]]

/-- Python's `text.strip()` on char lists (leading and trailing whitespace). -/
def pyStripChars (cs : List Char) : List Char :=
  ((cs.dropWhile Char.isWhitespace).reverse.dropWhile Char.isWhitespace).reverse

/-- Python's `text.lower()` (ASCII case folding, which covers every metric
name appearing in the source). -/
def pyLower (s : String) : String := String.mk (s.toList.map Char.toLower)

/-- Python's slice `l[-k:]`.  For `k = 0` this is `l[0:]`, i.e. the whole
list — the corner responsible for the capacity-0 behaviour of
`ConversationMemory`. -/
def pyLastSlice (l : List α) (k : Nat) : List α :=
  if k = 0 then l else l.drop (l.length - k)

/-- The suffix of the `k` most recently appended elements (the intended
"keep the most recent" semantics used to state the memory invariant). -/
def lastN (k : Nat) (l : List α) : List α := l.drop (l.length - k)

/-! ### Conversation memory (`src/app/memory.py`, `src/main.py`)

`langchain` message objects carry only a role (by class identity) and a
content string, as far as this repository uses them. -/

/-- A `HumanMessage` or `AIMessage` as used by `ConversationMemory`. -/
inductive PyMsg where
  | human (content : String)
  | ai (content : String)
deriving DecidableEq, Repr

/-- State of `ConversationMemory`. -/
structure ConversationMemory where
  messages : List PyMsg
  max_messages : Nat
deriving DecidableEq, Repr

namespace ConversationMemory

/-- `ConversationMemory._truncate`:
`if len(self.messages) > self.max_messages: self.messages = self.messages[-self.max_messages:]`. -/
def truncate (mem : ConversationMemory) : ConversationMemory :=
  if mem.max_messages < mem.messages.length then
    { mem with messages := pyLastSlice mem.messages mem.max_messages }
  else mem

/-- Common body of `add_user_message` / `add_ai_message`: append, then
`_truncate`. -/
def pushMessage (mem : ConversationMemory) (msg : PyMsg) : ConversationMemory :=
  truncate { mem with messages := mem.messages ++ [msg] }

/-- `ConversationMemory.add_user_message`. -/
def add_user_message (mem : ConversationMemory) (content : String) : ConversationMemory :=
  mem.pushMessage (.human content)

/-- `ConversationMemory.add_ai_message`. -/
def add_ai_message (mem : ConversationMemory) (content : String) : ConversationMemory :=
  mem.pushMessage (.ai content)

/-- `ConversationMemory.get_history_text`. -/
def get_history_text (mem : ConversationMemory) : String :=
  if mem.messages.isEmpty then "No previous conversation"
  else
    joinWith "\n" (mem.messages.map fun m =>
      match m with
      | .human c => "User: " ++ c
      | .ai c => "Assistant: " ++ c)

end ConversationMemory

/-- A fresh `ConversationMemory(max_messages)` after an arbitrary sequence of
`add_user_message` / `add_ai_message` calls, one per element of `msgs`
(the role only determines which constructor is appended). -/
def runMemory (maxM : Nat) (msgs : List PyMsg) : ConversationMemory :=
  msgs.foldl ConversationMemory.pushMessage ⟨[], maxM⟩

theorem lastN_length_le (k : Nat) (l : List α) : (lastN k l).length ≤ k := by
  simp only [lastN, List.length_drop]
  omega

theorem pushMessage_lastN (maxM : Nat) (h : 1 ≤ maxM) (l : List PyMsg) (m : PyMsg) :
    ConversationMemory.pushMessage ⟨lastN maxM l, maxM⟩ m = ⟨lastN maxM (l ++ [m]), maxM⟩ := by
  unfold ConversationMemory.pushMessage ConversationMemory.truncate
  by_cases hlt : l.length < maxM
  · have h1 : l.length - maxM = 0 := by omega
    have h2 : (l.length + 1) - maxM = 0 := by omega
    have hcond : ¬ (maxM < ((lastN maxM l) ++ [m]).length) := by
      simp only [lastN, List.length_append, List.length_drop, List.length_cons,
        List.length_nil]
      omega
    simp only [hcond, if_false]
    simp only [lastN, h1, List.drop_zero, List.length_append, List.length_cons,
      List.length_nil, h2]
  · push_neg at hlt
    have hlen : (lastN maxM l).length = maxM := by
      simp only [lastN, List.length_drop]; omega
    have hcond : maxM < ((lastN maxM l) ++ [m]).length := by
      simp only [List.length_append, hlen, List.length_cons, List.length_nil]
      omega
    simp only [hcond, if_true]
    have hk0 : maxM ≠ 0 := by omega
    simp only [pyLastSlice, hk0, if_false]
    have hdroplen : ((lastN maxM l) ++ [m]).length - maxM = 1 := by
      simp only [List.length_append, hlen, List.length_cons, List.length_nil]
      omega
    rw [hdroplen]
    have h1le : 1 ≤ (lastN maxM l).length := by omega
    rw [List.drop_append_of_le_length h1le]
    simp only [lastN, List.drop_drop]
    have e1 : l.length - maxM + 1 = (l ++ [m]).length - maxM := by
      simp only [List.length_append, List.length_cons, List.length_nil]
      omega
    rw [e1]
    have hle2 : (l ++ [m]).length - maxM ≤ l.length := by
      simp only [List.length_append, List.length_cons, List.length_nil]
      omega
    simp only [lastN, List.drop_append_of_le_length hle2]

theorem runMemory_eq (maxM : Nat) (h : 1 ≤ maxM) (msgs : List PyMsg) :
    runMemory maxM msgs = ⟨lastN maxM msgs, maxM⟩ := by
  induction msgs using List.reverseRecOn with
  | nil => simp [runMemory, lastN]
  | append_singleton l m ih =>
    unfold runMemory at ih ⊢
    rw [List.foldl_append, ih]
    simpa using pushMessage_lastN maxM h l m

/-- C1 (amended): for every capacity `N ≥ 1` and every sequence of
`add_user_message` / `add_ai_message` calls, the message list afterwards is
exactly the `N` most recently appended messages in their original relative
order (so eviction removes only from the oldest end), and in particular its
length is at most `N`.  (The unamended claim, quantified over all `N`
including `N = 0`, is refuted by `conversationMemory_capacity_zero_cex`.) -/
theorem conversationMemory_bounded_lastN (maxM : Nat) (h : 1 ≤ maxM) (msgs : List PyMsg) :
    (runMemory maxM msgs).messages = lastN maxM msgs ∧
    (runMemory maxM msgs).messages.length ≤ maxM := by
  rw [runMemory_eq maxM h msgs]
  exact ⟨rfl, lastN_length_le maxM msgs⟩

/-- Witness for `conversationMemory_bounded_lastN` at `N = 2` and a concrete
three-call sequence. -/
theorem conversationMemory_bounded_lastN_witness :
    1 ≤ 2 ∧
    ((runMemory 2 [PyMsg.human "a", PyMsg.ai "b", PyMsg.human "c"]).messages =
        lastN 2 [PyMsg.human "a", PyMsg.ai "b", PyMsg.human "c"] ∧
      (runMemory 2 [PyMsg.human "a", PyMsg.ai "b", PyMsg.human "c"]).messages.length ≤ 2) :=
  ⟨by decide,
   conversationMemory_bounded_lastN 2 (by decide) [PyMsg.human "a", PyMsg.ai "b", PyMsg.human "c"]⟩

/-- C1 counterexample: with capacity `N = 0`, one `add_user_message` leaves
the list at length `1 > 0`, because Python's `self.messages[-0:]` is the
whole list.  The claim's bound "length at most N after each call" therefore
fails at `N = 0`. -/
theorem conversationMemory_capacity_zero_cex :
    (runMemory 0 [PyMsg.human "hi"]).messages = [PyMsg.human "hi"] ∧
    ¬ ((runMemory 0 [PyMsg.human "hi"]).messages.length ≤ 0) := by
  exact ⟨by decide, by decide⟩

/-! ### Context visualizer (`src/app/visualizer.py`, `src/main.py`)

The `timestamp` field written by `add_layer` (wall-clock time) is outside
the shallow embedding and is omitted; no claim refers to it. -/

/-- One entry of `self.context_layers`. -/
structure Layer where
  layer : String
  content : String
  tokens : Int
deriving DecidableEq, Repr

/-- Python `dict[str, int]` write `d[k] = v`: update in place when the key
exists (keys are unique by construction), append otherwise. -/
def dictSet (d : List (String × Int)) (k : String) (v : Int) : List (String × Int) :=
  if d.any (fun p => p.1 == k) then d.map (fun p => if p.1 == k then (k, v) else p)
  else d ++ [(k, v)]

/-- Python `d.get(k)` on the same association-list model. -/
def dictGet (d : List (String × Int)) (k : String) : Option Int :=
  (d.find? (fun p => p.1 == k)).map (fun p => p.2)

/-- State of `ContextVisualizer`. -/
structure ContextVisualizer where
  context_layers : List Layer
  token_counts : List (String × Int)
deriving DecidableEq, Repr

namespace ContextVisualizer

/-- `ContextVisualizer()` constructor. -/
def new : ContextVisualizer := ⟨[], []⟩

/-- `ContextVisualizer.add_layer(layer_name, content, token_estimate=None)`:
when the estimate is omitted it is `len(content) // 4`; the layer record is
appended to `context_layers` and `token_counts[layer_name]` is written. -/
def add_layer (v : ContextVisualizer) (layer_name content : String)
    (token_estimate : Option Int) : ContextVisualizer :=
  let est := token_estimate.getD ((content.length / 4 : Nat) : Int)
  { context_layers := v.context_layers ++ [⟨layer_name, content, est⟩],
    token_counts := dictSet v.token_counts layer_name est }

/-- `sum(self.token_counts.values())`, the `total_tokens` of `get_summary`
and the `total_tokens` used by the renderers. -/
def summary_total (v : ContextVisualizer) : Int :=
  (v.token_counts.map (fun p => p.2)).sum

/-- Sum of the per-entry `tokens` over the rendered layer sequence
(`context_layers`), which `get_summary` does NOT report. -/
def layersTokenSum (v : ContextVisualizer) : Int :=
  (v.context_layers.map Layer.tokens).sum

end ContextVisualizer

/-- An `add_layer(name, content, est)` call. -/
structure AddLayerCall where
  name : String
  content : String
  est : Option Int
deriving DecidableEq, Repr

/-- The token estimate an `add_layer` call records (explicit argument, or
the `len(content) // 4` default). -/
def callEst (c : AddLayerCall) : Int :=
  c.est.getD ((c.content.length / 4 : Nat) : Int)

/-- A fresh `ContextVisualizer()` after a sequence of `add_layer` calls. -/
def runVisualizer (calls : List AddLayerCall) : ContextVisualizer :=
  calls.foldl (fun v c => v.add_layer c.name c.content c.est) ContextVisualizer.new

theorem dictSet_of_notMem (d : List (String × Int)) (k : String) (v : Int)
    (h : ∀ p ∈ d, p.1 ≠ k) : dictSet d k v = d ++ [(k, v)] := by
  unfold dictSet
  have : d.any (fun p => p.1 == k) = false := by
    simp only [List.any_eq_false]
    intro p hp
    simpa using h p hp
  rw [this]
  simp

theorem dictGet_dictSet (d : List (String × Int)) (k : String) (v : Int) :
    dictGet (dictSet d k v) k = some v := by
  induction d with
  | nil => simp [dictSet, dictGet]
  | cons p t ih =>
    by_cases hp : p.1 = k
    · have hany : (p :: t).any (fun q => q.1 == k) = true := by
        simp [List.any_cons, hp]
      simp only [dictSet, hany, if_true, List.map_cons]
      have hbeq : (p.1 == k) = true := by simpa using hp
      simp only [hbeq, if_true, dictGet, List.find?]
      simp
    · have hbeq : (p.1 == k) = false := by simpa using hp
      by_cases ht : t.any (fun q => q.1 == k) = true
      · have hany : (p :: t).any (fun q => q.1 == k) = true := by
          simp [List.any_cons, ht]
        simp only [dictSet, hany, if_true, List.map_cons, hbeq, Bool.false_eq_true,
          if_false, dictGet, List.find?_cons, hbeq]
        have ih' := ih
        simp only [dictSet, ht, if_true, dictGet] at ih'
        exact ih'
      · rw [Bool.not_eq_true] at ht
        have hany : (p :: t).any (fun q => q.1 == k) = false := by
          simp [List.any_cons, hbeq, ht]
        simp only [dictSet, hany, Bool.false_eq_true, if_false, List.cons_append,
          dictGet, List.find?_cons, hbeq]
        have ih' := ih
        simp only [dictSet, ht, Bool.false_eq_true, if_false, dictGet] at ih'
        exact ih'

theorem add_layer_token_counts (v : ContextVisualizer) (n c : String) (o : Option Int) :
    (v.add_layer n c o).token_counts =
      dictSet v.token_counts n (o.getD ((c.length / 4 : Nat) : Int)) := rfl

theorem runVisualizer_token_counts (calls : List AddLayerCall)
    (h : (calls.map AddLayerCall.name).Nodup) :
    (runVisualizer calls).token_counts = calls.map (fun c => (c.name, callEst c)) := by
  induction calls using List.reverseRecOn with
  | nil => rfl
  | append_singleton l c ih =>
    rw [List.map_append, List.nodup_append] at h
    obtain ⟨h1, _, h3⟩ := h
    unfold runVisualizer at ih ⊢
    rw [List.foldl_append]
    simp only [List.foldl_cons, List.foldl_nil]
    rw [add_layer_token_counts, ih h1, List.map_append]
    simp only [List.map_cons, List.map_nil]
    rw [dictSet_of_notMem]
    · rfl
    · intro p hp
      simp only [List.mem_map] at hp
      obtain ⟨c', hc', rfl⟩ := hp
      intro heq
      exact h3 (List.mem_map_of_mem AddLayerCall.name hc') (by simp at heq; simp [heq])

/-- C3 (amended): `add_layer` without an explicit estimate records
`len(content) // 4`; and for every sequence of `add_layer` calls whose
labels are pairwise distinct, `get_summary`'s `total_tokens` equals the sum
of the individually-added estimates.  (Without the distinctness
restriction the claim fails, because `token_counts` is keyed by label and
a repeated label overwrites its aggregate entry: see
`visualizer_total_duplicate_cex`.) -/
theorem visualizer_default_estimate_and_total (calls : List AddLayerCall)
    (h : (calls.map AddLayerCall.name).Nodup) :
    (∀ (v : ContextVisualizer) (n c : String),
        (v.add_layer n c none).context_layers.getLast? =
          some ⟨n, c, ((c.length / 4 : Nat) : Int)⟩) ∧
    (runVisualizer calls).summary_total = (calls.map callEst).sum := by
  constructor
  · intro v n c
    simp [ContextVisualizer.add_layer]
  · unfold ContextVisualizer.summary_total
    rw [runVisualizer_token_counts calls h, List.map_map]
    rfl

/-- Witness for `visualizer_default_estimate_and_total` on a concrete
two-call sequence with distinct labels. -/
theorem visualizer_default_estimate_and_total_witness :
    ([⟨"A", "aaaa", none⟩, ⟨"B", "bbbbbbbb", none⟩].map AddLayerCall.name).Nodup ∧
    ((∀ (v : ContextVisualizer) (n c : String),
        (v.add_layer n c none).context_layers.getLast? =
          some ⟨n, c, ((c.length / 4 : Nat) : Int)⟩) ∧
      (runVisualizer [⟨"A", "aaaa", none⟩, ⟨"B", "bbbbbbbb", none⟩]).summary_total =
        ([(⟨"A", "aaaa", none⟩ : AddLayerCall), ⟨"B", "bbbbbbbb", none⟩].map callEst).sum) :=
  ⟨by decide,
   visualizer_default_estimate_and_total [⟨"A", "aaaa", none⟩, ⟨"B", "bbbbbbbb", none⟩]
     (by decide)⟩

/-- C3 counterexample: two `add_layer` calls with the same label `"A"` and
default estimates `1` and `2`.  The individually-added estimates sum to
`3`, but `get_summary` reports `2` (the second write overwrote the
aggregate map entry), so "total equals the sum of all individually-added
estimates" fails for sequences with repeated labels. -/
theorem visualizer_total_duplicate_cex :
    (runVisualizer [⟨"A", "aaaa", none⟩, ⟨"A", "aaaaaaaa", none⟩]).summary_total = 2 ∧
    ([(⟨"A", "aaaa", none⟩ : AddLayerCall), ⟨"A", "aaaaaaaa", none⟩].map callEst).sum = 3 ∧
    (runVisualizer [⟨"A", "aaaa", none⟩, ⟨"A", "aaaaaaaa", none⟩]).summary_total ≠
      ([(⟨"A", "aaaa", none⟩ : AddLayerCall), ⟨"A", "aaaaaaaa", none⟩].map callEst).sum := by
  exact ⟨by decide, by decide, by decide⟩

/-- C4: a second `add_layer` call with an already-used label appends a
second entry to `context_layers` but overwrites that label's single entry
in `token_counts`; consequently the sum of per-entry token counts in the
sequence can exceed `get_summary`'s total, as the concrete instance in the
last conjunct shows (`1 + 2 = 3 > 2`). -/
theorem addLayer_duplicate_label (v : ContextVisualizer) (name c1 c2 : String)
    (o1 o2 : Option Int) :
    ((v.add_layer name c1 o1).add_layer name c2 o2).context_layers =
        v.context_layers ++
          [⟨name, c1, o1.getD ((c1.length / 4 : Nat) : Int)⟩,
           ⟨name, c2, o2.getD ((c2.length / 4 : Nat) : Int)⟩] ∧
    dictGet ((v.add_layer name c1 o1).add_layer name c2 o2).token_counts name =
        some (o2.getD ((c2.length / 4 : Nat) : Int)) ∧
    (runVisualizer [⟨"A", "aaaa", none⟩, ⟨"A", "aaaaaaaa", none⟩]).layersTokenSum >
      (runVisualizer [⟨"A", "aaaa", none⟩, ⟨"A", "aaaaaaaa", none⟩]).summary_total := by
  refine ⟨?_, ?_, by decide⟩
  · simp [ContextVisualizer.add_layer]
  · exact dictGet_dictSet _ _ _

/-! ### Percentage rendering (`src/app/ui.py`, `src/main.py`)

Both renderers compute
`percentage = (layer["tokens"] / total_tokens * 100) if total_tokens > 0 else 0`. -/

/-- The per-layer percentage computed by `format_context_layers` /
`visualize`; Python float division is modelled over `ℚ`. -/
def format_percentage (tokens total : Int) : ℚ :=
  if 0 < total then (tokens : ℚ) / (total : ℚ) * 100 else 0

/-- C8: when the token counts sum to zero, percentage rendering performs no
division (the guard takes the `else 0` branch) and reports `0` for every
layer. -/
theorem percentage_zero_total (v : ContextVisualizer) (h : v.summary_total = 0) :
    ∀ l ∈ v.context_layers, format_percentage l.tokens v.summary_total = 0 := by
  intro l _
  rw [h]
  simp [format_percentage]

/-- Witness for `percentage_zero_total`: one layer with empty content, so
its default estimate and the total are both `0`. -/
theorem percentage_zero_total_witness :
    (ContextVisualizer.new.add_layer "A" "" none).summary_total = 0 ∧
    ∀ l ∈ (ContextVisualizer.new.add_layer "A" "" none).context_layers,
      format_percentage l.tokens (ContextVisualizer.new.add_layer "A" "" none).summary_total = 0 :=
  ⟨by decide, percentage_zero_total (ContextVisualizer.new.add_layer "A" "" none) (by decide)⟩

/-! ### Five-layer context assembly (`src/app/agent.py` lines 52–87) -/

/-- The visualizer built by `ContextEngineeringAgent.process_query` before
inference.  The system prompt, the retrieved knowledge (an external
FAISS call) and the rendered tool catalogue are parameters; the memory
contents determine the history layer exactly as in the source. -/
def process_query_layers (system_prompt : String) (mem : ConversationMemory)
    (retrieved_context user_query tools_context : String) : ContextVisualizer :=
  let v := ContextVisualizer.new
  let v := v.add_layer "System Instructions" system_prompt none
  let history_text := mem.get_history_text
  let v := v.add_layer "Conversation History"
    (if history_text ≠ "No previous conversation" then history_text
     else "No previous conversation") none
  let v := v.add_layer "Retrieved Knowledge (RAG)" retrieved_context none
  let v := v.add_layer "User Query" user_query none
  let v := v.add_layer "Available Tools" tools_context none
  v

/-- C2: with an empty conversation memory, `process_query` assembles exactly
five layers in the fixed order system instructions, conversation history,
retrieved knowledge, user query, available tools (labels as written in the
source), and the conversation-history layer's content is the
`"No previous conversation"` sentinel. -/
theorem process_query_five_layers_empty_memory (maxM : Nat)
    (sp rc uq tc : String) :
    (process_query_layers sp ⟨[], maxM⟩ rc uq tc).context_layers.map Layer.layer =
        ["System Instructions", "Conversation History", "Retrieved Knowledge (RAG)",
         "User Query", "Available Tools"] ∧
    (process_query_layers sp ⟨[], maxM⟩ rc uq tc).context_layers.map Layer.content =
        [sp, "No previous conversation", rc, uq, tc] := by
  constructor <;>
    simp [process_query_layers, ContextVisualizer.add_layer, ContextVisualizer.new,
      ConversationMemory.get_history_text]

/-! ### Orchestrator error boundary (`src/app/agent.py` lines 100–111,
`src/app/ui.py` lines 127–149)

In `ContextEngineeringAgent.process_query` the memory updates
(`add_user_message` then `add_ai_message`) happen strictly after
`self.agent.invoke(...)` returns, so an exception from the model call
propagates with the memory untouched.  `ContextVisualizerUI.process_query`
catches that exception and renders `f"Error processing query: {str(e)}"`.
The external model call is modelled as an `Except String String` outcome
(exception message, or final textual answer). -/

/-- Tail of `ContextEngineeringAgent.process_query` from the `invoke` call
onwards: on success the response is extracted and the memory receives the
user query and then the answer; an exception propagates unchanged. -/
def agent_invoke_and_update (mem : ConversationMemory) (user_query : String)
    (modelOutcome : Except String String) : Except String (ConversationMemory × String) :=
  match modelOutcome with
  | .error e => .error e
  | .ok response => .ok ((mem.add_user_message user_query).add_ai_message response, response)

/-- `ContextVisualizerUI.process_query`'s try/except around the agent call,
restricted to the memory state and the message shown for this turn. -/
def ui_process_query (mem : ConversationMemory) (user_query : String)
    (modelOutcome : Except String String) : ConversationMemory × String :=
  match agent_invoke_and_update mem user_query modelOutcome with
  | .error e => (mem, "Error processing query: " ++ e)
  | .ok (mem2, response) => (mem2, response)

/-- C9: if the model invocation raises, the conversation memory is exactly
what it was before the query and the user sees
`"Error processing query: <exception>"`; on success the memory receives
exactly two appends — the user query, then the model's final answer. -/
theorem ui_process_query_memory_discipline (mem : ConversationMemory)
    (q e r : String) :
    ui_process_query mem q (.error e) = (mem, "Error processing query: " ++ e) ∧
    ui_process_query mem q (.ok r) =
      ((mem.add_user_message q).add_ai_message r, r) :=
  ⟨rfl, rfl⟩

/-! ### Exact model of Python floats for `calculate_metric`

`float(token)` on a stripped decimal literal (optional sign, digits,
optional fraction, optional exponent) is modelled exactly as a rational:
an integer numerator over a positive power-of-ten denominator.  Division
keeps the value exact.  `nan`/`inf` literals, underscores in literals,
IEEE rounding, overflow and the signed zero are outside the model. -/

/-- An exact rational value of a Python float: `num / den` with `den > 0`
whenever produced by the parser or the guarded arithmetic below. -/
structure PyFloat where
  num : Int
  den : Int
deriving DecidableEq, Repr

/-- Python `x == 0` for a float (the denominator is positive on every value
the tools build). -/
def PyFloat.isZero (p : PyFloat) : Bool := p.num == 0

/-- Python float division `a / b` (callers either guard `b != 0` or catch
`ZeroDivisionError` before using the result).  The sign is normalised into
the numerator so that the denominator stays positive. -/
def fdivPy (a b : PyFloat) : PyFloat :=
  if a.den * b.num < 0 then ⟨-(a.num * b.den), -(a.den * b.num)⟩
  else ⟨a.num * b.den, a.den * b.num⟩

/-- Python `x * k` for an integer literal `k` (used for the `* 100` in the
percentage-style metrics). -/
def mulIntPy (p : PyFloat) (k : Int) : PyFloat := ⟨p.num * k, p.den⟩

/-- Value of a digit run, most significant first. -/
def digitsVal (l : List Char) : Nat :=
  l.foldl (fun a c => a * 10 + (c.toNat - 48)) 0

/-- The mantissa `sign * (intpart.fracpart)` as an exact rational. -/
def mkDec (sgn : Int) (ip fp : List Char) : PyFloat :=
  ⟨sgn * ((digitsVal ip : Int) * pow10 fp.length + (digitsVal fp : Int)), pow10 fp.length⟩

/-- Scale by `10 ^ e` for a (possibly negative) exponent. -/
def applyExp (p : PyFloat) (e : Int) : PyFloat :=
  if 0 ≤ e then ⟨p.num * pow10 e.toNat, p.den⟩ else ⟨p.num, p.den * pow10 (-e).toNat⟩

/-- Optional leading `+`/`-`: the sign and the remaining characters. -/
def parseSign (cs : List Char) : Int × List Char :=
  match cs with
  | '+' :: r => (1, r)
  | '-' :: r => (-1, r)
  | r => (1, r)

/-- After the mantissa: end of input, or an exponent part `e`/`E`, sign,
digits; anything else is a `ValueError`. -/
def parseTail (mant : PyFloat) (cs : List Char) : Option PyFloat :=
  match cs with
  | [] => some mant
  | c :: r1 =>
    if c = 'e' ∨ c = 'E' then
      let es := parseSign r1
      let ed := es.2.takeWhile Char.isDigit
      let r3 := es.2.dropWhile Char.isDigit
      if ed.isEmpty || !r3.isEmpty then none
      else some (applyExp mant (es.1 * (digitsVal ed : Int)))
    else none

/-- `float(token)` on an already-stripped token: `some` exact value, or
`none` for the `ValueError` branch. -/
def parseFloat? (cs0 : List Char) : Option PyFloat :=
  let s := parseSign cs0
  let ip := s.2.takeWhile Char.isDigit
  let cs2 := s.2.dropWhile Char.isDigit
  let fp := if cs2.head? = some '.' then cs2.tail.takeWhile Char.isDigit else []
  let cs3 := if cs2.head? = some '.' then cs2.tail.dropWhile Char.isDigit else cs2
  if ip.isEmpty && fp.isEmpty then none
  else parseTail (mkDec s.1 ip fp) cs3

/-- `[x.strip() for x in values.split(",")]` as char lists. -/
def pyTokens (values : String) : List (List Char) :=
  (splitCharsOn ',' values.toList).map pyStripChars

/-- `[float(x.strip()) for x in values.split(",")]`: all values, or `none`
as soon as one token fails (the comprehension raises at the first bad
token). -/
def parseFloatList (values : String) : Option (List PyFloat) :=
  (pyTokens values).mapM parseFloat?

/-- The first token whose `float(...)` raises — the token CPython's
`ValueError` message quotes. -/
def firstBadToken (values : String) : String :=
  match (pyTokens values).find? (fun t => (parseFloat? t).isNone) with
  | some t => String.mk t
  | none => ""

/-- CPython's `str(ValueError)` text for a failed `float(tok)`. -/
def floatConvMsg (tok : String) : String :=
  "could not convert string to float: '" ++ tok ++ "'"

/-! #### `f"{x:.2f}"` formatting

Round-half-even to two decimals of the exact rational, then print.  For
every value reached by the claims the rational is exactly representable,
so this agrees with CPython's formatting of the corresponding double. -/

/-- Round-half-even of `(n / d) * 100` to an integer, for `d > 0`, using
only integer arithmetic (`/` and `%` are Euclidean, i.e. flooring for a
positive divisor). -/
def rhe100 (n d : Int) : Int :=
  if 2 * ((n * 100) % d) < d then (n * 100) / d
  else if d < 2 * ((n * 100) % d) then (n * 100) / d + 1
  else if ((n * 100) / d) % 2 = 0 then (n * 100) / d else (n * 100) / d + 1

/-- `f"{p:.2f}"` on the exact value `p` (with `den > 0`): sign, integer
part, two fractional digits. -/
def fmt2 (p : PyFloat) : String :=
  (if rhe100 p.num p.den < 0 ∨ (rhe100 p.num p.den = 0 ∧ p.num < 0) then "-" else "") ++
    toString ((rhe100 p.num p.den).natAbs / 100) ++ "." ++
    (if (rhe100 p.num p.den).natAbs % 100 < 10 then "0" else "") ++
    toString ((rhe100 p.num p.den).natAbs % 100)

/-! #### The two `calculate_metric` implementations -/

/-- Final `return` of `main.py`'s `calculate_metric`. -/
def mainFallthroughMsg (metric_name values : String) : String :=
  "Calculated " ++ metric_name ++ " with values " ++ values

/-- `except` branch of `main.py`'s `calculate_metric` for a parse failure. -/
def mainParseErrorMsg (values : String) : String :=
  "Error calculating metric: " ++ floatConvMsg (firstBadToken values)

/-- `except` branch of `main.py`'s `calculate_metric` for the unguarded
division hitting a zero denominator (`str(ZeroDivisionError)`). -/
def mainZeroDivMsg : String := "Error calculating metric: float division by zero"

/-- `calculate_metric` from `src/main.py` (metrics `aov`,
`conversion_rate`, `churn_rate`; divisions NOT guarded against a zero
denominator — the `ZeroDivisionError` is caught by the blanket
`except`). -/
def main_calculate_metric (metric_name values : String) : String :=
  match parseFloatList values with
  | none => mainParseErrorMsg values
  | some nums =>
    match nums with
    | n0 :: n1 :: _ =>
      if pyLower metric_name = "aov" then
        if n1.isZero then mainZeroDivMsg
        else "AOV: $" ++ fmt2 (fdivPy n0 n1)
      else if pyLower metric_name = "conversion_rate" then
        if n1.isZero then mainZeroDivMsg
        else "Conversion Rate: " ++ fmt2 (mulIntPy (fdivPy n0 n1) 100) ++ "%"
      else if pyLower metric_name = "churn_rate" then
        if n1.isZero then mainZeroDivMsg
        else "Churn Rate: " ++ fmt2 (mulIntPy (fdivPy n0 n1) 100) ++ "%"
      else mainFallthroughMsg metric_name values
    | _ => mainFallthroughMsg metric_name values

/-- Final generic `return` of `src/app/tools.py`'s `calculate_metric`. -/
def toolsCouldNotMsg (metric_name : String) : String :=
  "Metric '" ++ metric_name ++ "' could not be computed. " ++
    "Please verify the metric name and input values."

/-- `except` branch of `src/app/tools.py`'s `calculate_metric` (only the
parse can raise there; every division is guarded). -/
def toolsParseErrorMsg (metric_name values : String) : String :=
  "Error computing metric '" ++ metric_name ++ "': " ++ floatConvMsg (firstBadToken values)

/-- `calculate_metric` from `src/app/tools.py` (metrics `nrr`, `stam`,
`payment_success_rate`; every division guarded by `len(nums) >= 2 and
nums[1] != 0`, falling through to the generic message otherwise). -/
def tools_calculate_metric (metric_name values : String) : String :=
  match parseFloatList values with
  | none => toolsParseErrorMsg metric_name values
  | some nums =>
    match nums with
    | n0 :: n1 :: _ =>
      if pyLower metric_name = "nrr" then
        if n1.isZero then toolsCouldNotMsg metric_name
        else "Net Revenue Retention (NRR): " ++ fmt2 (mulIntPy (fdivPy n0 n1) 100) ++ "%"
      else if pyLower metric_name = "stam" then
        if n1.isZero then toolsCouldNotMsg metric_name
        else "STAM: " ++ fmt2 (fdivPy n0 n1) ++ " successful transactions per merchant"
      else if pyLower metric_name = "payment_success_rate" then
        if n1.isZero then toolsCouldNotMsg metric_name
        else "Payment Success Rate (Adjusted): " ++ fmt2 (mulIntPy (fdivPy n0 n1) 100) ++ "%"
      else toolsCouldNotMsg metric_name
    | _ => toolsCouldNotMsg metric_name

/-- C5: for every metric name and values string, both `calculate_metric`
implementations return a string rather than raising: a values string with a
non-numeric token yields the descriptive `ValueError`-derived error string,
and a successfully parsed list with fewer than two numbers skips every
formula and yields the descriptive fallthrough string. -/
theorem calculate_metric_never_raises (metric values : String) :
    (parseFloatList values = none →
      tools_calculate_metric metric values = toolsParseErrorMsg metric values ∧
      main_calculate_metric metric values = mainParseErrorMsg values) ∧
    (∀ nums, parseFloatList values = some nums → nums.length < 2 →
      tools_calculate_metric metric values = toolsCouldNotMsg metric ∧
      main_calculate_metric metric values = mainFallthroughMsg metric values) := by
  constructor
  · intro h
    exact ⟨by simp only [tools_calculate_metric, h],
           by simp only [main_calculate_metric, h]⟩
  · intro nums h hlen
    cases nums with
    | nil =>
      exact ⟨by simp only [tools_calculate_metric, h],
             by simp only [main_calculate_metric, h]⟩
    | cons a t =>
      cases t with
      | nil =>
        exact ⟨by simp only [tools_calculate_metric, h],
               by simp only [main_calculate_metric, h]⟩
      | cons b t2 =>
        simp only [List.length_cons] at hlen
        omega

/-- Witness for `calculate_metric_never_raises`: the non-numeric token
`"xyz"`, and the one-number string `"7"`. -/
theorem calculate_metric_never_raises_witness :
    (tools_calculate_metric "aov" "xyz" = toolsParseErrorMsg "aov" "xyz" ∧
      main_calculate_metric "aov" "xyz" = mainParseErrorMsg "xyz") ∧
    (tools_calculate_metric "aov" "7" = toolsCouldNotMsg "aov" ∧
      main_calculate_metric "aov" "7" = mainFallthroughMsg "aov" "7") :=
  ⟨(calculate_metric_never_raises "aov" "xyz").1 (by decide),
   (calculate_metric_never_raises "aov" "7").2 [⟨7, 1⟩] (by decide) (by decide)⟩

/-- C6: `main.py`'s `calculate_metric("aov", "50000, 500")` is exactly
`"AOV: $100.00"`, and `calculate_metric("aov", "abc, 500")` returns the
caught-`ValueError` error string instead of raising. -/
theorem main_calculate_metric_aov_examples :
    main_calculate_metric "aov" "50000, 500" = "AOV: $100.00" ∧
    main_calculate_metric "aov" "abc, 500" =
      "Error calculating metric: could not convert string to float: 'abc'" :=
  ⟨by decide, by decide⟩

/-- C7 (amended): in `src/app/tools.py`'s `calculate_metric` every
supported metric (`nrr`, `stam`, `payment_success_rate`) guards its
division, so a zero second number skips the computation and falls through
to the generic could-not-be-computed message; in `src/main.py`'s
`calculate_metric` the division is NOT guarded for its supported metrics
(`aov`, `conversion_rate`, `churn_rate`) — the `ZeroDivisionError` is
caught and the division-error string is returned instead of the generic
message (see `main_zero_denominator_cex`). -/
theorem calculate_metric_zero_denominator (metric values : String) (n0 n1 : PyFloat)
    (rest : List PyFloat) (hp : parseFloatList values = some (n0 :: n1 :: rest))
    (hz : n1.num = 0) :
    ((pyLower metric = "nrr" ∨ pyLower metric = "stam" ∨
        pyLower metric = "payment_success_rate") →
      tools_calculate_metric metric values = toolsCouldNotMsg metric) ∧
    ((pyLower metric = "aov" ∨ pyLower metric = "conversion_rate" ∨
        pyLower metric = "churn_rate") →
      main_calculate_metric metric values = mainZeroDivMsg) := by
  have hz' : n1.isZero = true := by simp [PyFloat.isZero, hz]
  constructor
  · rintro (hm | hm | hm) <;> simp [tools_calculate_metric, hp, hm, hz']
  · rintro (hm | hm | hm) <;> simp [main_calculate_metric, hp, hm, hz']

/-- Witness for `calculate_metric_zero_denominator` at the values string
`"5,0"`, with metric `"nrr"` (tools) and `"aov"` (main). -/
theorem calculate_metric_zero_denominator_witness :
    tools_calculate_metric "nrr" "5,0" = toolsCouldNotMsg "nrr" ∧
    main_calculate_metric "aov" "5,0" = mainZeroDivMsg :=
  ⟨(calculate_metric_zero_denominator "nrr" "5,0" ⟨5, 1⟩ ⟨0, 1⟩ [] (by decide) (by decide)).1
     (Or.inl (by decide)),
   (calculate_metric_zero_denominator "aov" "5,0" ⟨5, 1⟩ ⟨0, 1⟩ [] (by decide) (by decide)).2
     (Or.inl (by decide))⟩

/-! #### Denominator positivity of parsed values -/

theorem mkDec_den_pos (sgn : Int) (ip fp : List Char) : 0 < (mkDec sgn ip fp).den :=
  pow10_pos _

theorem applyExp_den_pos (p : PyFloat) (e : Int) (h : 0 < p.den) :
    0 < (applyExp p e).den := by
  unfold applyExp
  split_ifs
  · exact h
  · exact mul_pos h (pow10_pos _)

theorem parseTail_den_pos {mant : PyFloat} {cs : List Char} {p : PyFloat}
    (hm : 0 < mant.den) (h : parseTail mant cs = some p) : 0 < p.den := by
  cases cs with
  | nil =>
    simp only [parseTail, Option.some.injEq] at h
    exact h ▸ hm
  | cons c r1 =>
    simp only [parseTail] at h
    split_ifs at h
    all_goals
      first
        | exact Option.noConfusion h
        | (injection h with h; exact h ▸ applyExp_den_pos _ _ hm)

theorem parseFloat?_den_pos {cs : List Char} {p : PyFloat}
    (h : parseFloat? cs = some p) : 0 < p.den := by
  simp only [parseFloat?] at h
  split_ifs at h <;>
    first
      | exact Option.noConfusion h
      | exact parseTail_den_pos (mkDec_den_pos _ _ _) h

theorem mapM_parseFloat?_den_pos :
    ∀ (ts : List (List Char)) (nums : List PyFloat),
      ts.mapM parseFloat? = some nums → ∀ p ∈ nums, 0 < p.den := by
  intro ts
  induction ts with
  | nil =>
    intro nums h p hp
    simp only [List.mapM_nil, pure] at h
    injection h with h
    subst h
    simp at hp
  | cons t ts ih =>
    intro nums h p hp
    rw [List.mapM_cons] at h
    cases hf : parseFloat? t with
    | none => rw [hf] at h; simp at h
    | some b =>
      rw [hf] at h
      cases hrest : ts.mapM parseFloat? with
      | none => rw [hrest] at h; simp at h
      | some bs =>
        rw [hrest] at h
        simp at h
        subst h
        rcases List.mem_cons.mp hp with rfl | hmem
        · exact parseFloat?_den_pos hf
        · exact ih bs hrest p hmem

theorem parseFloatList_den_pos {values : String} {nums : List PyFloat}
    (h : parseFloatList values = some nums) : ∀ p ∈ nums, 0 < p.den :=
  mapM_parseFloat?_den_pos _ _ h

/-! #### The formatted result depends only on the exact value

Two `PyFloat`s with positive denominators that are equal as rationals
(`p.num * q.den = q.num * p.den`) format identically, compare to zero
identically, and divide identically. -/

theorem ediv_cross {a1 d1 a2 d2 : Int} (h1 : 0 < d1) (h2 : 0 < d2)
    (hc : a1 * d2 = a2 * d1) : a1 / d1 = a2 / d2 := by
  have hb1 : (a1 / d1) * d1 ≤ a1 := Int.ediv_mul_le a1 (by positivity)
  have hb2 : a1 < (a1 / d1 + 1) * d1 := Int.lt_ediv_add_one_mul_self a1 h1
  have hq1 : (a1 / d1) * d2 ≤ a2 := by nlinarith
  have hq2 : a2 < (a1 / d1 + 1) * d2 := by nlinarith
  have hle : a1 / d1 ≤ a2 / d2 := (Int.le_ediv_iff_mul_le h2).mpr hq1
  have hlt : a2 / d2 < a1 / d1 + 1 := (Int.ediv_lt_iff_lt_mul h2).mpr hq2
  omega

theorem emod2_cross {a1 d1 a2 d2 : Int} (h1 : 0 < d1) (h2 : 0 < d2)
    (hc : a1 * d2 = a2 * d1) :
    ((2 * (a1 % d1) < d1) ↔ (2 * (a2 % d2) < d2)) ∧
    ((d1 < 2 * (a1 % d1)) ↔ (d2 < 2 * (a2 % d2))) := by
  have hf := ediv_cross h1 h2 hc
  rw [Int.emod_def, Int.emod_def, hf]
  constructor
  · constructor
    · intro h; nlinarith
    · intro h; nlinarith
  · constructor
    · intro h; nlinarith
    · intro h; nlinarith

theorem rhe100_cross {n1 d1 n2 d2 : Int} (h1 : 0 < d1) (h2 : 0 < d2)
    (hc : n1 * d2 = n2 * d1) : rhe100 n1 d1 = rhe100 n2 d2 := by
  have hc' : (n1 * 100) * d2 = (n2 * 100) * d1 := by linear_combination 100 * hc
  have hf := ediv_cross h1 h2 hc'
  have hm := emod2_cross h1 h2 hc'
  unfold rhe100
  rw [hf]
  simp only [hm.1, hm.2]

theorem ltZero_cross {n1 d1 n2 d2 : Int} (h1 : 0 < d1) (h2 : 0 < d2)
    (hc : n1 * d2 = n2 * d1) : (n1 < 0 ↔ n2 < 0) := by
  constructor <;> intro h <;> nlinarith

theorem fmt2_cross (p q : PyFloat) (hp : 0 < p.den) (hq : 0 < q.den)
    (h : p.num * q.den = q.num * p.den) : fmt2 p = fmt2 q := by
  have hr := rhe100_cross hp hq h
  have hs := ltZero_cross hp hq h
  unfold fmt2
  rw [hr]
  simp only [hs]

theorem isZero_cross (p q : PyFloat) (hp : 0 < p.den) (hq : 0 < q.den)
    (h : p.num * q.den = q.num * p.den) : p.isZero = q.isZero := by
  simp only [PyFloat.isZero]
  by_cases hz : p.num = 0
  · have hq0 : q.num = 0 := by
      have h0 : q.num * p.den = 0 := by rw [← h, hz]; ring
      rcases mul_eq_zero.mp h0 with h' | h'
      · exact h'
      · omega
    simp [hz, hq0]
  · have hqz : q.num ≠ 0 := by
      intro h0
      apply hz
      have h0' : p.num * q.den = 0 := by rw [h, h0]; ring
      rcases mul_eq_zero.mp h0' with h' | h'
      · exact h'
      · omega
    simp [hz, hqz]

theorem fdivPy_cross (a1 b1 a2 b2 : PyFloat)
    (ha1 : 0 < a1.den) (hb1 : 0 < b1.den) (ha2 : 0 < a2.den) (hb2 : 0 < b2.den)
    (hb1n : b1.num ≠ 0) (hb2n : b2.num ≠ 0)
    (hA : a1.num * a2.den = a2.num * a1.den)
    (hB : b1.num * b2.den = b2.num * b1.den) :
    0 < (fdivPy a1 b1).den ∧ 0 < (fdivPy a2 b2).den ∧
    (fdivPy a1 b1).num * (fdivPy a2 b2).den =
      (fdivPy a2 b2).num * (fdivPy a1 b1).den := by
  have key : (a1.num * b1.den) * (a2.den * b2.num) =
      (a2.num * b2.den) * (a1.den * b1.num) := by
    linear_combination (b1.den * b2.num) * hA - (a1.den * a2.num) * hB
  have hne1 : a1.den * b1.num ≠ 0 := mul_ne_zero (by omega) hb1n
  have hne2 : a2.den * b2.num ≠ 0 := mul_ne_zero (by omega) hb2n
  have hbb : b1.num < 0 ↔ b2.num < 0 := ltZero_cross hb1 hb2 hB
  have hsame : (a1.den * b1.num < 0) ↔ (a2.den * b2.num < 0) := by
    constructor
    · intro h
      have hbneg : b1.num < 0 := by nlinarith
      exact mul_neg_of_pos_of_neg ha2 (hbb.mp hbneg)
    · intro h
      have hbneg : b2.num < 0 := by nlinarith
      exact mul_neg_of_pos_of_neg ha1 (hbb.mpr hbneg)
  unfold fdivPy
  split_ifs with hd1 hd2 hd2
  · exact ⟨by simp only []; omega, by simp only []; omega,
      by simp only []; linear_combination key⟩
  · exact absurd (hsame.mp hd1) hd2
  · exact absurd (hsame.mpr hd2) hd1
  · exact ⟨by simp only []; omega, by simp only []; omega,
      by simp only []; linear_combination key⟩

theorem mulIntPy_den (p : PyFloat) (k : Int) : (mulIntPy p k).den = p.den := rfl

theorem mulIntPy_cross (p q : PyFloat) (k : Int)
    (h : p.num * q.den = q.num * p.den) :
    (mulIntPy p k).num * (mulIntPy q k).den =
      (mulIntPy q k).num * (mulIntPy p k).den := by
  simp only [mulIntPy]
  linear_combination k * h

/-- C10: for every supported metric name of either implementation, the
result of `calculate_metric` depends only on the metric name and the first
two parsed numbers: two values strings that parse successfully and agree
on their first two numbers (as exact values) give identical result
strings, so extra trailing comma-separated numeric values never change the
result. -/
theorem calculate_metric_first_two_determine (metric v1 v2 : String)
    (a1 b1 a2 b2 : PyFloat) (t1 t2 : List PyFloat)
    (hp1 : parseFloatList v1 = some (a1 :: b1 :: t1))
    (hp2 : parseFloatList v2 = some (a2 :: b2 :: t2))
    (hA : a1.num * a2.den = a2.num * a1.den)
    (hB : b1.num * b2.den = b2.num * b1.den) :
    ((pyLower metric = "nrr" ∨ pyLower metric = "stam" ∨
        pyLower metric = "payment_success_rate") →
      tools_calculate_metric metric v1 = tools_calculate_metric metric v2) ∧
    ((pyLower metric = "aov" ∨ pyLower metric = "conversion_rate" ∨
        pyLower metric = "churn_rate") →
      main_calculate_metric metric v1 = main_calculate_metric metric v2) := by
  have ha1 : 0 < a1.den := parseFloatList_den_pos hp1 a1 (by simp)
  have hb1 : 0 < b1.den := parseFloatList_den_pos hp1 b1 (by simp)
  have ha2 : 0 < a2.den := parseFloatList_den_pos hp2 a2 (by simp)
  have hb2 : 0 < b2.den := parseFloatList_den_pos hp2 b2 (by simp)
  have hiz : b1.isZero = b2.isZero := isZero_cross b1 b2 hb1 hb2 hB
  have hdiv : b2.isZero = false →
      fmt2 (fdivPy a1 b1) = fmt2 (fdivPy a2 b2) ∧
      fmt2 (mulIntPy (fdivPy a1 b1) 100) = fmt2 (mulIntPy (fdivPy a2 b2) 100) := by
    intro hz
    have hb2n : b2.num ≠ 0 := by
      simpa [PyFloat.isZero] using hz
    have hb1n : b1.num ≠ 0 := by
      have : b1.isZero = false := hiz.trans hz
      simpa [PyFloat.isZero] using this
    obtain ⟨hd1, hd2, hcross⟩ :=
      fdivPy_cross a1 b1 a2 b2 ha1 hb1 ha2 hb2 hb1n hb2n hA hB
    refine ⟨fmt2_cross _ _ hd1 hd2 hcross, ?_⟩
    exact fmt2_cross _ _ (by rw [mulIntPy_den]; exact hd1)
      (by rw [mulIntPy_den]; exact hd2) (mulIntPy_cross _ _ 100 hcross)
  constructor
  · rintro (hm | hm | hm) <;>
    · simp only [tools_calculate_metric, hp1, hp2, hm]
      rw [hiz]
      cases hzc : b2.isZero with
      | true => simp [hzc]
      | false => simp [hzc, (hdiv hzc).1, (hdiv hzc).2]
  · rintro (hm | hm | hm) <;>
    · simp only [main_calculate_metric, hp1, hp2, hm]
      rw [hiz]
      cases hzc : b2.isZero with
      | true => simp [hzc]
      | false => simp [hzc, (hdiv hzc).1, (hdiv hzc).2]

/-- Witness for `calculate_metric_first_two_determine`: `"1,2"` versus
`"1, 2, 3"` for `nrr` (tools) and `aov` (main). -/
theorem calculate_metric_first_two_determine_witness :
    tools_calculate_metric "nrr" "1,2" = tools_calculate_metric "nrr" "1, 2, 3" ∧
    main_calculate_metric "aov" "1,2" = main_calculate_metric "aov" "1, 2, 3" :=
  ⟨(calculate_metric_first_two_determine "nrr" "1,2" "1, 2, 3"
      ⟨1, 1⟩ ⟨2, 1⟩ ⟨1, 1⟩ ⟨2, 1⟩ [] [⟨3, 1⟩]
      (by decide) (by decide) (by decide) (by decide)).1 (Or.inl (by decide)),
   (calculate_metric_first_two_determine "aov" "1,2" "1, 2, 3"
      ⟨1, 1⟩ ⟨2, 1⟩ ⟨1, 1⟩ ⟨2, 1⟩ [] [⟨3, 1⟩]
      (by decide) (by decide) (by decide) (by decide)).2 (Or.inl (by decide))⟩

/-- C7 counterexample: for the supported metric `conversion_rate` of
`main.py`'s `calculate_metric`, a zero second number does NOT skip the
division — the result is the caught division-error string, not the generic
unrecognized-result message of that implementation. -/
theorem main_zero_denominator_cex :
    main_calculate_metric "conversion_rate" "1,0" =
      "Error calculating metric: float division by zero" ∧
    main_calculate_metric "conversion_rate" "1,0" ≠
      mainFallthroughMsg "conversion_rate" "1,0" :=
  ⟨by decide, by decide⟩
